import Mathlib

/-!
Shallow embedding of the core of the alethic-ism-core-go runtime SDK:
the windowed block store (pkg/windowing), the route registry wildcard
lookup and transport serializer (pkg/routing), the local TTL cache
(pkg/cache/local_cache.go) and the cached backend wrapper
(pkg/cache, CachedBackend).

Time is modelled as a natural number of ticks (`now`), passed explicitly
where the Go code calls `time.Now()`.  Go maps are modelled as
association lists with overwrite-on-insert; Go pointers shared between a
map and a heap are modelled as numeric ids into an entry store.
-/

namespace ISM

/-- A dynamic Go value (`any`) as it occurs in event payloads: strings,
integers, a formatted timestamp (`time.Now().Format(time.RFC3339)` at
tick `n`), and the two-element `[]interface{}{v1, v2}` produced by
`MergeCombine` on conflicting fields. -/
inductive GoVal where
  | vStr (s : String)
  | vInt (n : Int)
  | vTime (n : Nat)
  | vPair (a b : GoVal)
deriving Repr, DecidableEq

/-- Go's `fmt.Sprintf("%v", v)` on the values above. -/
def GoVal.fmt : GoVal → String
  | .vStr s => s
  | .vInt n => toString n
  | .vTime n => "time:" ++ toString n
  | .vPair a b => "[" ++ a.fmt ++ " " ++ b.fmt ++ "]"

/-- `models.Data = map[string]any`, as an association list whose keys are
kept unique by the insert operation below. -/
def Data := List (String × GoVal)
deriving Repr, DecidableEq

instance : Membership (String × GoVal) Data := inferInstanceAs (Membership _ (List _))

/-- Map lookup, `v, ok := m[k]`. -/
def Data.find? (m : Data) (k : String) : Option GoVal :=
  match m with
  | [] => none
  | (k', v) :: rest => if k' = k then some v else Data.find? rest k

/-- Map assignment `m[k] = v`: overwrite in place if present, append otherwise. -/
def Data.insert (m : Data) (k : String) (v : GoVal) : Data :=
  match m with
  | [] => [(k, v)]
  | (k', v') :: rest => if k' = k then (k, v) :: rest else (k', v') :: Data.insert rest k v

/-- `GetKeyValue` accumulator: walks the key definitions, appending
`fmt.Sprintf("%v|", value)` for each, failing on the first missing field
(part_024, `GetKeyValue`). -/
def GetKeyValueAux (event : Data) (acc : String) : List String → Except String String
  | [] => .ok acc
  | field :: rest =>
    match event.find? field with
    | none => .error ("field `" ++ field ++ "` not present in event")
    | some v => GetKeyValueAux event (acc ++ v.fmt ++ "|") rest

/-- `BlockStore.GetKeyValue`: builds the composite block key from the
store's key definitions.  The store's `KeyDefinitions` are modelled by
their ordered field names, the only part `GetKeyValue` reads. -/
def GetKeyValue (keyDefs : List String) (event : Data) : Except String String :=
  GetKeyValueAux event "" keyDefs

/-- `windowing.BlockPart`: one wrapped inbound event. -/
structure BlockPart where
  data : Data
  expireAt : Nat
  joinCount : Nat
deriving Repr, DecidableEq

/-- The outcome of one combine invocation.  The Go combine functions
mutate both parts' `JoinCount` in place; the functional model returns the
updated parts alongside the result payload. -/
structure CombineOut where
  result : Data
  stored : BlockPart
  inbound : BlockPart
deriving Repr, DecidableEq

/-- `windowing.CombineFunc`, with the extra explicit `now` tick standing
for the `time.Now()` call inside the Go functions. -/
abbrev CombineFunc :=
  String → BlockPart → String → BlockPart → List String → Nat → CombineOut

/-- Helper of `JoinCombine`: `addFields` copies every non-key field of
`e` into `result` (later inserts overwrite earlier ones, as in Go map
assignment). -/
def addNonKeyFields (keyDefs : List String) (e : Data) (result : Data) : Data :=
  e.foldl (fun acc kv => if kv.1 ∈ keyDefs then acc else acc.insert kv.1 kv.2) result

/-- `windowing.JoinCombine` (logging.go): key fields are copied once from
the stored part, non-key fields from both sources are placed
side-by-side, a `joinedAt` timestamp is added, and both parts'
`JoinCount` is incremented. -/
def JoinCombine (_src1 : String) (e1 : BlockPart) (_src2 : String) (e2 : BlockPart)
    (keyDefs : List String) (now : Nat) : CombineOut :=
  let keyPart : Data := keyDefs.foldl
    (fun acc field =>
      match e1.data.find? field with
      | some v => acc.insert field v
      | none => acc) []
  let withE1 := addNonKeyFields keyDefs e1.data keyPart
  let withE2 := addNonKeyFields keyDefs e2.data withE1
  { result := withE2.insert "joinedAt" (.vTime now)
    stored := { e1 with joinCount := e1.joinCount + 1 }
    inbound := { e2 with joinCount := e2.joinCount + 1 } }

/-- `windowing.MergeCombine` (logging.go): all fields from both sources;
a field present in both with unequal values becomes the ordered pair
`[stored, inbound]`; a `mergedAt` timestamp is added; both parts'
`JoinCount` is incremented. -/
def MergeCombine (_src1 : String) (e1 : BlockPart) (_src2 : String) (e2 : BlockPart)
    (_keyDefs : List String) (now : Nat) : CombineOut :=
  let a := e1.data
  let b := e2.data
  let fromA : Data := a.foldl
    (fun acc kv =>
      match b.find? kv.1 with
      | some bv => if kv.2 ≠ bv then acc.insert kv.1 (.vPair kv.2 bv) else acc.insert kv.1 kv.2
      | none => acc.insert kv.1 kv.2) []
  let fromB : Data := b.foldl
    (fun acc kv =>
      match a.find? kv.1 with
      | some _ => acc
      | none => acc.insert kv.1 kv.2) fromA
  { result := fromB.insert "mergedAt" (.vTime now)
    stored := { e1 with joinCount := e1.joinCount + 1 }
    inbound := { e2 with joinCount := e2.joinCount + 1 } }

/-- `windowing.Block`: one correlation cell.  `partsBySource` is the
`map[string][]*BlockPart`; the block heap index is irrelevant to the
claims below and omitted. -/
structure Block where
  key : String
  partsBySource : List (String × List BlockPart)
  evictionTime : Nat
deriving Repr, DecidableEq

/-- `windowing.BlockStore` configuration and block map.  The pluggable
combine function is passed to `AddData` explicitly so that the state
stays decidable. -/
structure BlockStore where
  keyDefinitions : List String
  blockCountSoftLimit : Nat
  blockPartMaxJoinCount : Nat
  blockWindowTTL : Nat
  blockPartMaxAge : Nat
  blocks : List (String × Block)
deriving Repr, DecidableEq

/-- Association-list lookup (Go map read). -/
def lookupAssoc {κ α : Type} [DecidableEq κ] (m : List (κ × α)) (k : κ) : Option α :=
  match m with
  | [] => none
  | (k', v) :: rest => if k' = k then some v else lookupAssoc rest k

/-- Association-list overwrite (Go map assignment). -/
def setAssoc {κ α : Type} [DecidableEq κ] (m : List (κ × α)) (k : κ) (v : α) :
    List (κ × α) :=
  match m with
  | [] => [(k, v)]
  | (k', v') :: rest => if k' = k then (k, v) :: rest else (k', v') :: setAssoc rest k v

/-- `block.partsBySource[src] = append(block.partsBySource[src], part)`. -/
def appendPart (m : List (String × List BlockPart)) (src : String) (p : BlockPart) :
    List (String × List BlockPart) :=
  match lookupAssoc m src with
  | some parts => setAssoc m src (parts ++ [p])
  | none => m ++ [(src, [p])]

/-- The inner sweep of `AddData` over one stored source's part list:
in-place compaction dropping expired / max-joined parts, one combine and
one callback emission per surviving stored part, threading the inbound
part (whose `JoinCount` the combine mutates through the shared pointer). -/
def sweepParts (combine : CombineFunc) (keyDefs : List String)
    (maxJoin now : Nat) (storedSourceID inboundSourceID : String)
    (parts : List BlockPart) (inbound : BlockPart) :
    List BlockPart × BlockPart × List Data :=
  parts.foldl
    (fun (st : List BlockPart × BlockPart × List Data) p =>
      let (kept, inb, emitted) := st
      if p.expireAt < now ∨ maxJoin ≤ p.joinCount then
        (kept, inb, emitted)
      else
        let out := combine storedSourceID p inboundSourceID inb keyDefs now
        (kept ++ [out.stored], out.inbound, emitted ++ [out.result]))
    ([], inbound, [])

/-- `BlockStore.AddData` (part_024): computes the composite key, gets or
creates the block, appends the inbound part, sweeps every *other*
source's part list (skip-and-drop on expiry or max joins, combine and
emit on survivors), writes the final inbound part back into its source
list, and refreshes the block's sliding-window eviction time.  The
emitted payload list models the sequence of `callback` invocations;
the callback is assumed to succeed, as in every claim below. -/
def AddData (store : BlockStore) (combine : CombineFunc) (now : Nat)
    (inboundSourceID : String) (inboundSourceData : Data) :
    Except String (BlockStore × List Data) :=
  match GetKeyValue store.keyDefinitions inboundSourceData with
  | .error e => .error ("could not get key value for source data: " ++ e)
  | .ok keyValue =>
    let block :=
      match lookupAssoc store.blocks keyValue with
      | some b => b
      | none =>
        { key := keyValue, partsBySource := [], evictionTime := now + store.blockWindowTTL }
    let inboundPart : BlockPart :=
      { data := inboundSourceData, expireAt := now + store.blockPartMaxAge, joinCount := 0 }
    let swept := block.partsBySource.foldl
      (fun (st : List (String × List BlockPart) × BlockPart × List Data) entry =>
        let (accParts, inb, emitted) := st
        if entry.1 = inboundSourceID then
          (accParts ++ [entry], inb, emitted)
        else
          let (kept, inb2, em2) := sweepParts combine store.keyDefinitions
            store.blockPartMaxJoinCount now entry.1 inboundSourceID entry.2 inb
          (accParts ++ [(entry.1, kept)], inb2, emitted ++ em2))
      ([], inboundPart, [])
    let (sweptParts, finalInbound, emitted) := swept
    let block2 : Block :=
      { block with
        partsBySource := appendPart sweptParts inboundSourceID finalInbound
        evictionTime := now + store.blockWindowTTL }
    .ok ({ store with blocks := setAssoc store.blocks keyValue block2 }, emitted)

/-! ### Route registry (pkg/routing/route.go) -/

/-- The slice of `NatConfig` that the registry lookups read. -/
structure NatConfig where
  selector : String
  subject : String
deriving Repr, DecidableEq

/-- The two error sites of `FindRouteBySelectorWildcard`. -/
inductive FindErr where
  | notFound
  | ambiguous
deriving Repr, DecidableEq

/-- `Config.selectorMap`, the selector index built by `BuildRouteMaps`
(keys are unique because Go map keys are). -/
structure RouteConfigMap where
  selectorMap : List (String × NatConfig)
deriving Repr, DecidableEq

/-- Go's `s[:len(pre)] == pre` guarded by `len(s) >= len(pre)`, on the
character sequence of a string. -/
def strHasPrefixSrc (pre s : List Char) : Bool :=
  decide (pre.length ≤ s.length) && (s.take pre.length == pre)

/-- The candidate condition of the wildcard scan, exactly as written in
`FindRouteBySelectorWildcard`: `len(key) >= 2 && key[len(key)-2:] == "/*"`,
then prefix-match of `key[:len(key)-2]` against the query. -/
def wildcardMatchSrc (key sel : List Char) : Bool :=
  decide (2 ≤ key.length) && (key.drop (key.length - 2) == ['/', '*']) &&
    strHasPrefixSrc (key.take (key.length - 2)) sel

/-- The same condition stated the spec's way: the stored selector ends in
`"/*"` and the selector minus that suffix is a string prefix of the query. -/
def wildcardMatchSpec (key sel : List Char) : Bool :=
  decide (2 ≤ key.length) && (key.drop (key.length - 2) == ['/', '*']) &&
    (key.take (key.length - 2)).isPrefixOf sel

/-- `Config.FindRouteBySelector`: exact hash-map lookup. -/
def FindRouteBySelector (c : RouteConfigMap) (selector : String) :
    Except FindErr NatConfig :=
  match lookupAssoc c.selectorMap selector with
  | some route => .ok route
  | none => .error .notFound

/-- `Config.FindRouteBySelectorWildcard`: exact match first; on miss,
scan the selector keys for `/*` wildcard prefix matches; exactly one
candidate is returned, zero is `notFound`, two or more is `ambiguous`. -/
def FindRouteBySelectorWildcard (c : RouteConfigMap) (selector : String) :
    Except FindErr NatConfig :=
  match lookupAssoc c.selectorMap selector with
  | some route => .ok route
  | none =>
    let cands := c.selectorMap.foldl
      (fun acc entry =>
        if wildcardMatchSrc entry.1.data selector.data then acc ++ [entry.2] else acc)
      []
    match cands with
    | [r] => .ok r
    | [] => .error .notFound
    | _ => .error .ambiguous

/-! ### Transport serializer `toBytes` (pkg/routing, both NATS copies) -/

/-- UTF-8 encoding of one character, byte values as naturals. -/
def utf8EncodeChar (c : Char) : List Nat :=
  let n := c.toNat
  if n < 0x80 then [n]
  else if n < 0x800 then
    [0xC0 ||| (n >>> 6), 0x80 ||| (n &&& 0x3F)]
  else if n < 0x10000 then
    [0xE0 ||| (n >>> 12), 0x80 ||| ((n >>> 6) &&& 0x3F), 0x80 ||| (n &&& 0x3F)]
  else
    [0xF0 ||| (n >>> 18), 0x80 ||| ((n >>> 12) &&& 0x3F),
      0x80 ||| ((n >>> 6) &&& 0x3F), 0x80 ||| (n &&& 0x3F)]

/-- `[]byte(s)`: the UTF-8 bytes of a string. -/
def utf8Bytes (s : String) : List Nat :=
  s.data.foldr (fun c acc => utf8EncodeChar c ++ acc) []

/-- A minimal JSON rendering of a dynamic value, standing for
`encoding/json.Marshal` on the payload values used here. -/
def GoVal.json : GoVal → String
  | .vStr s => "\"" ++ s ++ "\""
  | .vInt n => toString n
  | .vTime n => "\"time:" ++ toString n ++ "\""
  | .vPair a b => "[" ++ a.json ++ "," ++ b.json ++ "]"

/-- JSON rendering of a `map[string]any` payload (Go's `json.Marshal`
emits map keys in sorted order). -/
def jsonOfData (m : Data) : String :=
  let entries := (m.map (fun kv => "\"" ++ kv.1 ++ "\":" ++ kv.2.json))
  let sorted := entries.mergeSort (fun a b => a ≤ b)
  "\x7b" ++ String.intercalate "," sorted ++ "\x7d"

/-- The input shapes `toBytes` distinguishes. -/
inductive Msg where
  | bytes (b : List Nat)
  | str (s : String)
  | mapData (m : Data)
deriving Repr, DecidableEq

/-- `toBytes` as written in both NATS transport copies.  In the `[]byte`
branch the source assigns `v = data` (not `data = v`), so the nil `data`
accumulator — modelled as the empty byte list — is what gets returned. -/
def toBytes : Msg → Except String (List Nat)
  | .bytes _ => .ok []
  | .str s => .ok (utf8Bytes s)
  | .mapData m => .ok (utf8Bytes (jsonOfData m))

/-! ### Local TTL cache (pkg/cache/local_cache.go)

The Go cache shares `*cacheEntry` pointers between the `items` map and
the eviction min-heap; the model stores entries in a pointer table
(`entries`, keyed by numeric id) and lets `items` and `itemsHeap` refer
to ids. -/

/-- `cacheEntry`: key, value (`nil` after an internal delete), absolute
eviction tick and the tracked heap index. -/
structure CacheEntry where
  key : String
  value : Option GoVal
  evictAt : Nat
  index : Int
deriving Repr, DecidableEq

/-- `LocalCache` state: the pointer table, the `items` map (key → entry
pointer), the heap array of entry pointers, and the default TTL. -/
structure LocalCache where
  entries : List (Nat × CacheEntry)
  nextId : Nat
  items : List (String × Nat)
  itemsHeap : List Nat
  defaultTTL : Nat
deriving Repr, DecidableEq

def defaultEntry : CacheEntry := { key := "", value := none, evictAt := 0, index := -1 }

/-- Dereference an entry pointer. -/
def getEntry (c : LocalCache) (id : Nat) : CacheEntry :=
  (lookupAssoc c.entries id).getD defaultEntry

/-- Write through an entry pointer. -/
def setEntry (c : LocalCache) (id : Nat) (e : CacheEntry) : LocalCache :=
  { c with entries := setAssoc c.entries id e }

/-- `cacheItemsHeap.Less i j`: strict comparison of eviction times. -/
def heapLess (c : LocalCache) (i j : Nat) : Bool :=
  (getEntry c (c.itemsHeap.getD i 0)).evictAt < (getEntry c (c.itemsHeap.getD j 0)).evictAt

/-- `cacheItemsHeap.Swap i j`, updating both entries' tracked indices. -/
def heapSwap (c : LocalCache) (i j : Nat) : LocalCache :=
  let a := c.itemsHeap.getD i 0
  let b := c.itemsHeap.getD j 0
  let c1 := { c with itemsHeap := (c.itemsHeap.set i b).set j a }
  let c2 := setEntry c1 b { getEntry c1 b with index := Int.ofNat i }
  setEntry c2 a { getEntry c2 a with index := Int.ofNat j }

/-- `container/heap`'s `up` sift: while the element at `j` is strictly
less than its parent, swap.  The fuel argument bounds the loop; callers
pass the heap length, which always suffices since `j` strictly
decreases. -/
def heapUp (c : LocalCache) : Nat → Nat → LocalCache
  | 0, _ => c
  | fuel + 1, j =>
    if j = 0 then c
    else
      let i := (j - 1) / 2
      if heapLess c j i then heapUp (heapSwap c i j) fuel i else c

/-- `heap.Push`: set the pushed entry's index to the old length, append,
then sift up from the last position. -/
def heapPush (c : LocalCache) (id : Nat) : LocalCache :=
  let n := c.itemsHeap.length
  let c1 := setEntry c id { getEntry c id with index := Int.ofNat n }
  let c2 := { c1 with itemsHeap := c1.itemsHeap ++ [id] }
  heapUp c2 (n + 1) n

/-- Association-list removal (Go's builtin `delete(m, k)`). -/
def eraseAssoc {κ α : Type} [DecidableEq κ] (m : List (κ × α)) (k : κ) : List (κ × α) :=
  match m with
  | [] => []
  | (k', v) :: rest => if k' = k then rest else (k', v) :: eraseAssoc rest k

/-- `LocalCache.add` (write lock held): allocate a fresh entry with
`evictAt = now + ttl` (default TTL when `ttl = 0`), store it in `items`
and push it onto the heap.  `Set` is exactly this under the lock — note
that it pushes unconditionally, it never updates in place. -/
def cacheAdd (c : LocalCache) (now : Nat) (key : String) (value : GoVal) (ttl : Nat) :
    LocalCache :=
  let ttl := if ttl = 0 then c.defaultTTL else ttl
  let id := c.nextId
  let entry : CacheEntry := { key := key, value := some value, evictAt := now + ttl, index := 0 }
  let c1 : LocalCache :=
    { c with
      entries := c.entries ++ [(id, entry)]
      nextId := id + 1
      items := setAssoc c.items key id }
  heapPush c1 id

/-- `LocalCache.Set`. -/
def cacheSet (c : LocalCache) (now : Nat) (key : String) (value : GoVal) (ttl : Nat) :
    LocalCache :=
  cacheAdd c now key value ttl

/-- `LocalCache.Get`: map lookup, then the expiry check
`time.Now().After(entry.evictAt)` — an entry still in `items` is a miss
once its eviction tick has strictly passed. -/
def cacheGet (c : LocalCache) (now : Nat) (key : String) : Option GoVal × Bool :=
  match lookupAssoc c.items key with
  | none => (none, false)
  | some id =>
    let e := getEntry c id
    if e.evictAt < now then (none, false) else (e.value, true)

/-- `LocalCache.delete` (write lock held): mark the entry evicted-now and
nil its value through the shared pointer, then remove the key from
`items`.  The heap is not touched. -/
def cacheDelete (c : LocalCache) (now : Nat) (key : String) : LocalCache :=
  match lookupAssoc c.items key with
  | none => c
  | some id =>
    let c1 := setEntry c id { getEntry c id with evictAt := now, value := none }
    { c1 with items := eraseAssoc c1.items key }

/-- `LocalCache.DeleteByPrefix`: remove from `items` every key with the
given prefix (Go's byte-slice comparison); heap entries stay. -/
def cacheDeleteByPrefix (c : LocalCache) (pre : String) : LocalCache :=
  { c with items := c.items.filter (fun kv => !strHasPrefixSrc pre.data kv.1.data) }

/-- `LocalCache.Clear`: fresh `items` map; entries and heap stay. -/
def cacheClear (c : LocalCache) : LocalCache :=
  { c with items := [] }

def emptyCache (defaultTTL : Nat) : LocalCache :=
  { entries := [], nextId := 0, items := [], itemsHeap := [], defaultTTL := defaultTTL }

/-! ### Cached backend wrapper (pkg/cache, `CachedBackend`) -/

/-- `CachedBackend` state: the wrapped cache and the key registry mapping
`"<method>:<firstArg>"` to the set of full cache keys built under it.
The wrapped backend itself is irrelevant to the claims and omitted. -/
structure CachedBackend where
  cache : LocalCache
  defaultTTL : Nat
  keyRegistry : List (String × List String)
deriving Repr, DecidableEq

/-- The `sha256(json({method, args}))[0..8]` hex digest, modelled as an
abstract digest function passed to the operations (collisions are
possible in the source, so nothing here assumes injectivity). -/
abbrev HashFn := String → List GoVal → String

/-- `CachedBackend.BuildCacheKey`: the key is
`method ++ ":" ++ digest`; when there is at least one argument the key is
also registered under `"<method>:<firstArg>"` for prefix invalidation. -/
def BuildCacheKey (hash : HashFn) (cb : CachedBackend) (method : String)
    (args : List GoVal) : String × CachedBackend :=
  let cacheKey := method ++ ":" ++ hash method args
  match args with
  | [] => (cacheKey, cb)
  | a0 :: _ =>
    let registryKey := method ++ ":" ++ a0.fmt
    let keySet := (lookupAssoc cb.keyRegistry registryKey).getD []
    let keySet := if cacheKey ∈ keySet then keySet else keySet ++ [cacheKey]
    (cacheKey, { cb with keyRegistry := setAssoc cb.keyRegistry registryKey keySet })

/-- `CachedBackend.GetCached` (the cache-aside read used by
`CallCached`): cache hit returns the cached value; a miss fetches and
stores under the default TTL. -/
def GetCached (cb : CachedBackend) (now : Nat) (cacheKey : String) (fetch : GoVal) :
    GoVal × CachedBackend :=
  match cacheGet cb.cache now cacheKey with
  | (some v, true) => (v, cb)
  | _ =>
    (fetch, { cb with cache := cacheSet cb.cache now cacheKey fetch cb.defaultTTL })

/-- `cache.CallCached`: build (and register) the cache key, then run the
cache-aside read.  The fetch function is modelled by the value it
returns. -/
def CallCached (hash : HashFn) (cb : CachedBackend) (now : Nat) (method : String)
    (args : List GoVal) (fetch : GoVal) : GoVal × CachedBackend :=
  let (cacheKey, cb1) := BuildCacheKey hash cb method args
  GetCached cb1 now cacheKey fetch

/-- `CachedBackend.InvalidateMethodPrefix` with at least one prefix
argument: look up the registered key set for `"<method>:<prefixArgs[0]>"`,
delete each registered cache key, then clear the registry entry. -/
def InvalidateMethodPrefix (cb : CachedBackend) (now : Nat) (method : String)
    (prefixArgs : List GoVal) : CachedBackend :=
  match prefixArgs with
  | [] =>
    { cb with cache := cacheDeleteByPrefix cb.cache (method ++ ":") }
  | a0 :: _ =>
    let registryKey := method ++ ":" ++ a0.fmt
    match lookupAssoc cb.keyRegistry registryKey with
    | none => cb
    | some keySet =>
      let cache := keySet.foldl (fun acc k => cacheDelete acc now k) cb.cache
      { cb with cache := cache, keyRegistry := eraseAssoc cb.keyRegistry registryKey }

/-- The spec-side candidate set of the wildcard lookup: stored selectors
ending in `"/*"` whose prefix is a string prefix of the query. -/
def wildcardCandidates (c : RouteConfigMap) (s : String) : List NatConfig :=
  (c.selectorMap.filter (fun e => wildcardMatchSpec e.1.data s.data)).map (fun e => e.2)

/-- The composite key as `GetKeyValue` actually produces it: each key
field's `%v` rendering followed by the `"|"` delimiter — a trailing
delimiter after every value, the last included. -/
def keyConcatTrailing (keyDefs : List String) (event : Data) : String :=
  keyDefs.foldl (fun acc f => acc ++ ((event.find? f).getD (.vStr "")).fmt ++ "|") ""

/-! ### Concrete scenario constants -/

/-- The two-source join scenario store: `keyDefs=["id"]`,
`blockPartMaxJoinCount=1`, `blockPartMaxAge=15s`, `blockWindowTTL=1m`,
`blockCountSoftLimit=10` (ticks in seconds). -/
def joinStore0 : BlockStore :=
  { keyDefinitions := ["id"], blockCountSoftLimit := 10, blockPartMaxJoinCount := 1,
    blockWindowTTL := 60, blockPartMaxAge := 15, blocks := [] }

def jd1 : Data := [("id", .vStr "k"), ("a", .vInt 1)]

def jd2 : Data := [("id", .vStr "k"), ("b", .vInt 2)]

def jd3 : Data := [("id", .vStr "k"), ("b", .vInt 3)]

/-- Unwrap a successful `AddData`; the scenario theorems assert success
separately. -/
def runAdd (fallback : BlockStore) (e : Except String (BlockStore × List Data)) :
    BlockStore × List Data :=
  match e with
  | .ok p => p
  | .error _ => (fallback, [])

def joinStep1 : BlockStore × List Data := runAdd joinStore0 (AddData joinStore0 JoinCombine 0 "src1" jd1)

def joinStep2 : BlockStore × List Data := runAdd joinStore0 (AddData joinStep1.1 JoinCombine 0 "src2" jd2)

def joinStep3 : BlockStore × List Data := runAdd joinStore0 (AddData joinStep2.1 JoinCombine 0 "src2" jd3)

/-- The payload the join scenario's second call must emit. -/
def joinPayload : Data :=
  [("id", .vStr "k"), ("a", .vInt 1), ("b", .vInt 2), ("joinedAt", .vTime 0)]

/-- Concrete digest model used to instantiate the abstract `HashFn` in
witnesses: a deterministic rendering of the arguments. -/
def hashModel : HashFn := fun _method args => String.intercalate "," (args.map GoVal.json)

/-- The local-cache duplicate scenario: default TTL 100, then two `Set`s
of the same key at tick 0 with TTL 5. -/
def dupCache0 : LocalCache := emptyCache 100

def dupCache1 : LocalCache := cacheSet dupCache0 0 "k" (.vInt 1) 5

def dupCache2 : LocalCache := cacheSet dupCache1 0 "k" (.vInt 2) 5

end ISM

namespace ISM

/-! ### Helper lemmas -/

instance {ε α : Type} [DecidableEq ε] [DecidableEq α] : DecidableEq (Except ε α)
  | .error e, .error f => if h : e = f then isTrue (by rw [h]) else isFalse (by simp [h])
  | .error _, .ok _ => isFalse (by simp)
  | .ok _, .error _ => isFalse (by simp)
  | .ok a, .ok b => if h : a = b then isTrue (by rw [h]) else isFalse (by simp [h])

/-- Go's guarded byte-slice comparison is exactly list prefix. -/
theorem strHasPrefixSrc_eq (pre s : List Char) :
    strHasPrefixSrc pre s = pre.isPrefixOf s := by
  rw [Bool.eq_iff_iff]
  simp only [strHasPrefixSrc, Bool.and_eq_true, decide_eq_true_eq, beq_iff_eq,
    List.isPrefixOf_iff_prefix, List.prefix_iff_eq_take]
  constructor
  · rintro ⟨-, h⟩
    exact h.symm
  · intro h
    refine ⟨?_, h.symm⟩
    have := congrArg List.length h
    simpa using this.le

/-- The wildcard scan's candidate condition coincides with the
prefix-matching one stated by the spec. -/
theorem wildcardMatch_src_eq_spec (key sel : List Char) :
    wildcardMatchSrc key sel = wildcardMatchSpec key sel := by
  simp only [wildcardMatchSrc, wildcardMatchSpec, strHasPrefixSrc_eq]

theorem foldl_filter_append {α β : Type} (p : α → Bool) (f : α → β) (l : List α)
    (init : List β) :
    l.foldl (fun acc e => if p e then acc ++ [f e] else acc) init
      = init ++ (l.filter p).map f := by
  induction l generalizing init with
  | nil => simp
  | cons a l ih =>
    by_cases h : p a <;> simp [h, ih, List.filter_cons]

/-- The wildcard scan accumulates exactly the spec-side candidate set. -/
theorem wildcard_scan_eq_candidates (c : RouteConfigMap) (s : String) :
    c.selectorMap.foldl
        (fun acc entry =>
          if wildcardMatchSrc entry.1.data s.data then acc ++ [entry.2] else acc) []
      = wildcardCandidates c s := by
  have hpred :
      (fun e : String × NatConfig => wildcardMatchSrc e.1.data s.data)
        = fun e => wildcardMatchSpec e.1.data s.data := by
    funext e
    exact wildcardMatch_src_eq_spec e.1.data s.data
  rw [foldl_filter_append (fun e : String × NatConfig => wildcardMatchSrc e.1.data s.data)
    (fun e => e.2) c.selectorMap []]
  rw [wildcardCandidates, hpred]
  simp

/-- `GetKeyValueAux` succeeds, appending each value's `%v` rendering and
the delimiter, when every listed field is present. -/
theorem getKeyValueAux_ok (event : Data) (keyDefs : List String) (acc : String)
    (h : ∀ f ∈ keyDefs, (event.find? f).isSome) :
    GetKeyValueAux event acc keyDefs =
      .ok (keyDefs.foldl (fun a f => a ++ ((event.find? f).getD (.vStr "")).fmt ++ "|") acc) := by
  induction keyDefs generalizing acc with
  | nil => rfl
  | cons g rest ih =>
    have hg := h g (by simp)
    obtain ⟨v, hv⟩ := Option.isSome_iff_exists.mp hg
    have hrest : ∀ f ∈ rest, (event.find? f).isSome := fun f hf => h f (by simp [hf])
    simp [GetKeyValueAux, hv, ih (acc ++ v.fmt ++ "|") hrest]

/-- `GetKeyValueAux` fails when some listed field is missing. -/
theorem getKeyValueAux_errors (event : Data) (keyDefs : List String) (f : String)
    (hf : f ∈ keyDefs) (hmiss : event.find? f = none) (acc : String) :
    ∃ m, GetKeyValueAux event acc keyDefs = .error m := by
  induction keyDefs generalizing acc with
  | nil => cases hf
  | cons g rest ih =>
    rcases hv : event.find? g with - | v
    · exact ⟨"field `" ++ g ++ "` not present in event", by simp [GetKeyValueAux, hv]⟩
    · rcases List.mem_cons.mp hf with rfl | hrest
      · rw [hv] at hmiss
        cases hmiss
      · obtain ⟨m, hm⟩ := ih hrest (acc ++ v.fmt ++ "|")
        exact ⟨m, by simp [GetKeyValueAux, hv, hm]⟩

theorem lookupAssoc_setAssoc_self {κ α : Type} [DecidableEq κ] (m : List (κ × α))
    (k : κ) (v : α) : lookupAssoc (setAssoc m k v) k = some v := by
  induction m with
  | nil => simp [setAssoc, lookupAssoc]
  | cons a m ih =>
    obtain ⟨k', v'⟩ := a
    by_cases h : k' = k <;> simp [setAssoc, lookupAssoc, h, ih]

theorem lookupAssoc_setAssoc_ne {κ α : Type} [DecidableEq κ] (m : List (κ × α))
    (k k' : κ) (v : α) (h : k ≠ k') :
    lookupAssoc (setAssoc m k v) k' = lookupAssoc m k' := by
  induction m with
  | nil => simp [setAssoc, lookupAssoc, h]
  | cons a m ih =>
    obtain ⟨k0, v0⟩ := a
    by_cases h0 : k0 = k
    · subst h0
      simp [setAssoc, lookupAssoc, h]
    · simp [setAssoc, lookupAssoc, h0, ih]

theorem setAssoc_length {κ α : Type} [DecidableEq κ] (m : List (κ × α)) (k : κ) (v : α) :
    (setAssoc m k v).length
      = if (lookupAssoc m k).isSome then m.length else m.length + 1 := by
  induction m with
  | nil => simp [setAssoc, lookupAssoc]
  | cons a m ih =>
    obtain ⟨k', v'⟩ := a
    by_cases h : k' = k
    · simp [setAssoc, lookupAssoc, h]
    · simp only [setAssoc, if_neg h, lookupAssoc, List.length_cons, ih]
      split <;> rfl

theorem lookupAssoc_append_of_not_mem {κ α : Type} [DecidableEq κ]
    (m l : List (κ × α)) (k : κ) (h : ∀ p ∈ m, p.1 ≠ k) :
    lookupAssoc (m ++ l) k = lookupAssoc l k := by
  induction m with
  | nil => rfl
  | cons a m ih =>
    have ha := h a (by simp)
    simp only [List.cons_append, lookupAssoc, ha, if_neg ha]
    exact ih (fun p hp => h p (by simp [hp]))

/-- The fields of a cache entry other than the tracked heap index. -/
def entrySnap (e : CacheEntry) : String × Option GoVal × Nat :=
  (e.key, e.value, e.evictAt)

theorem getEntry_setEntry (c : LocalCache) (id' : Nat) (e : CacheEntry) (id : Nat) :
    getEntry (setEntry c id' e) id = if id' = id then e else getEntry c id := by
  by_cases h : id' = id
  · subst h
    simp [getEntry, setEntry, lookupAssoc_setAssoc_self]
  · simp [getEntry, setEntry, lookupAssoc_setAssoc_ne _ _ _ _ h, h]

theorem entrySnap_setEntry_index (c : LocalCache) (id' : Nat) (ix : Int) (id : Nat) :
    entrySnap (getEntry (setEntry c id' { getEntry c id' with index := ix }) id)
      = entrySnap (getEntry c id) := by
  rw [getEntry_setEntry]
  split
  · next h => subst h; rfl
  · rfl

theorem setEntry_items (c : LocalCache) (id : Nat) (e : CacheEntry) :
    (setEntry c id e).items = c.items := rfl

theorem setEntry_heap (c : LocalCache) (id : Nat) (e : CacheEntry) :
    (setEntry c id e).itemsHeap = c.itemsHeap := rfl

theorem heapSwap_snap (c : LocalCache) (i j id : Nat) :
    entrySnap (getEntry (heapSwap c i j) id) = entrySnap (getEntry c id) := by
  simp only [heapSwap]
  rw [entrySnap_setEntry_index, entrySnap_setEntry_index]
  rfl

theorem heapSwap_items (c : LocalCache) (i j : Nat) :
    (heapSwap c i j).items = c.items := rfl

theorem heapSwap_heap_length (c : LocalCache) (i j : Nat) :
    (heapSwap c i j).itemsHeap.length = c.itemsHeap.length := by
  simp [heapSwap, setEntry]

theorem heapUp_snap (c : LocalCache) (fuel j id : Nat) :
    entrySnap (getEntry (heapUp c fuel j) id) = entrySnap (getEntry c id) := by
  induction fuel generalizing c j with
  | zero => rfl
  | succ fuel ih =>
    simp only [heapUp]
    split
    · rfl
    · split
      · rw [ih, heapSwap_snap]
      · rfl

theorem heapUp_items (c : LocalCache) (fuel j : Nat) :
    (heapUp c fuel j).items = c.items := by
  induction fuel generalizing c j with
  | zero => rfl
  | succ fuel ih =>
    simp only [heapUp]
    split
    · rfl
    · split
      · rw [ih, heapSwap_items]
      · rfl

theorem heapUp_heap_length (c : LocalCache) (fuel j : Nat) :
    (heapUp c fuel j).itemsHeap.length = c.itemsHeap.length := by
  induction fuel generalizing c j with
  | zero => rfl
  | succ fuel ih =>
    simp only [heapUp]
    split
    · rfl
    · split
      · rw [ih, heapSwap_heap_length]
      · rfl

theorem heapPush_snap (c : LocalCache) (id0 id : Nat) :
    entrySnap (getEntry (heapPush c id0) id) = entrySnap (getEntry c id) := by
  simp only [heapPush]
  rw [heapUp_snap]
  exact entrySnap_setEntry_index c id0 (Int.ofNat c.itemsHeap.length) id

theorem heapPush_items (c : LocalCache) (id0 : Nat) :
    (heapPush c id0).items = c.items := by
  simp only [heapPush]
  rw [heapUp_items]
  rfl

theorem heapPush_heap_length (c : LocalCache) (id0 : Nat) :
    (heapPush c id0).itemsHeap.length = c.itemsHeap.length + 1 := by
  simp only [heapPush]
  rw [heapUp_heap_length]
  simp [setEntry]

theorem cacheAdd_items (c : LocalCache) (now : Nat) (k : String) (v : GoVal) (ttl : Nat) :
    (cacheAdd c now k v ttl).items = setAssoc c.items k c.nextId := by
  simp only [cacheAdd]
  rw [heapPush_items]

theorem cacheAdd_snap_new (c : LocalCache) (now : Nat) (k : String) (v : GoVal)
    (ttl : Nat) (hwf : ∀ p ∈ c.entries, p.1 < c.nextId) :
    entrySnap (getEntry (cacheAdd c now k v ttl) c.nextId)
      = (k, some v, now + (if ttl = 0 then c.defaultTTL else ttl)) := by
  simp only [cacheAdd]
  rw [heapPush_snap]
  have hne : ∀ p ∈ c.entries, p.1 ≠ c.nextId := fun p hp => Nat.ne_of_lt (hwf p hp)
  simp [getEntry, lookupAssoc_append_of_not_mem _ _ _ hne, lookupAssoc, entrySnap]

/-! ### Claim theorems -/

/-- C2: every invocation of `JoinCombine` or `MergeCombine` increments
the stored part's and the inbound part's `joinCount` by exactly one. -/
theorem combine_increments_join_counts (s1 s2 : String) (e1 e2 : BlockPart)
    (kd : List String) (now : Nat) :
    ((JoinCombine s1 e1 s2 e2 kd now).stored.joinCount = e1.joinCount + 1 ∧
      (JoinCombine s1 e1 s2 e2 kd now).inbound.joinCount = e2.joinCount + 1) ∧
    ((MergeCombine s1 e1 s2 e2 kd now).stored.joinCount = e1.joinCount + 1 ∧
      (MergeCombine s1 e1 s2 e2 kd now).inbound.joinCount = e2.joinCount + 1) :=
  ⟨⟨rfl, rfl⟩, ⟨rfl, rfl⟩⟩

/-- C4 counterexample: with `keyDefs=["id"]` and the event `{id:"k"}`,
the computed key is `"k|"` — a trailing delimiter — not `"k"` as the
claim's concat-with-delimiter semantics requires. -/
theorem getKeyValue_trailing_delimiter_counterexample :
    GetKeyValue ["id"] [("id", .vStr "k")] = .ok "k|" ∧
    GetKeyValue ["id"] [("id", .vStr "k")] ≠ .ok "k" := by
  constructor
  · rfl
  · decide

/-- C4 amended: for every event containing all key fields, the composite
key is the concatenation of each key value's `%v` rendering, each
followed by a `"|"` delimiter (so there is a trailing delimiter after
the last value, and a single-field key is the value plus `"|"`). -/
theorem getKeyValue_amended (keyDefs : List String) (event : Data)
    (h : ∀ f ∈ keyDefs, (event.find? f).isSome) :
    GetKeyValue keyDefs event = .ok (keyConcatTrailing keyDefs event) :=
  getKeyValueAux_ok event keyDefs "" h

/-- C4 amended witness at `keyDefs=["id","b"]`, event `{id:"x", b:7}`. -/
theorem getKeyValue_amended_witness :
    GetKeyValue ["id", "b"] [("id", .vStr "x"), ("b", .vInt 7)]
      = .ok (keyConcatTrailing ["id", "b"] [("id", .vStr "x"), ("b", .vInt 7)]) :=
  getKeyValue_amended ["id", "b"] [("id", .vStr "x"), ("b", .vInt 7)] (by decide)

/-- C6: the `[]byte` branch of `toBytes` returns the empty byte slice —
`v = data` instead of `data = v` — so raw bytes are dropped, not passed
through. -/
theorem toBytes_drops_raw_bytes :
    toBytes (.bytes [42]) = .ok [] ∧ toBytes (.bytes [42]) ≠ .ok [42] := by
  constructor
  · rfl
  · decide

/-- C10: the wildcard candidate condition is pure string-prefix matching
with no path-boundary requirement: it equals «key ends with `"/*"` and
the key minus that suffix is a string prefix of the query», so selector
`"a/b/*"` matches both the bare query `"a/b"` and `"a/bXYZ"`. -/
theorem wildcard_match_is_pure_string_prefix :
    (∀ key sel : List Char, wildcardMatchSrc key sel = wildcardMatchSpec key sel) ∧
    wildcardMatchSrc "a/b/*".data "a/b".data = true ∧
    wildcardMatchSrc "a/b/*".data "a/bXYZ".data = true :=
  ⟨wildcardMatch_src_eq_spec, by decide, by decide⟩

/-- C5: `FindRouteBySelectorWildcard` returns the exact route when the
query is a stored selector; otherwise it returns the unique wildcard
candidate when exactly one exists, a not-found error when none exists,
and an ambiguity error when two or more exist. -/
theorem find_route_by_selector_wildcard_correct (c : RouteConfigMap) (s : String) :
    (∀ r, lookupAssoc c.selectorMap s = some r → FindRouteBySelectorWildcard c s = .ok r) ∧
    (lookupAssoc c.selectorMap s = none →
      (∀ r, wildcardCandidates c s = [r] → FindRouteBySelectorWildcard c s = .ok r) ∧
      (wildcardCandidates c s = [] → FindRouteBySelectorWildcard c s = .error .notFound) ∧
      (2 ≤ (wildcardCandidates c s).length →
        FindRouteBySelectorWildcard c s = .error .ambiguous)) := by
  have hscan := wildcard_scan_eq_candidates c s
  constructor
  · intro r hr
    simp [FindRouteBySelectorWildcard, hr]
  · intro hnone
    refine ⟨?_, ?_, ?_⟩
    · intro r hr
      simp [FindRouteBySelectorWildcard, hnone, hscan, hr]
    · intro hr
      simp [FindRouteBySelectorWildcard, hnone, hscan, hr]
    · intro hlen
      rcases hval : wildcardCandidates c s with - | ⟨a, - | ⟨b, t⟩⟩
      · rw [hval] at hlen
        cases hlen
      · rw [hval] at hlen
        simp at hlen
      · simp [FindRouteBySelectorWildcard, hnone, hscan, hval]

/-- C5 witness: registry `{"p/u", "a/b/*"}`; the query `"a/b/c"` has no
exact match and exactly one wildcard candidate, which is returned. -/
theorem find_route_by_selector_wildcard_witness :
    FindRouteBySelectorWildcard
        ⟨[("p/u", ⟨"p/u", "subj.u"⟩), ("a/b/*", ⟨"a/b/*", "subj.ab"⟩)]⟩ "a/b/c"
      = .ok ⟨"a/b/*", "subj.ab"⟩ :=
  ((find_route_by_selector_wildcard_correct
      ⟨[("p/u", ⟨"p/u", "subj.u"⟩), ("a/b/*", ⟨"a/b/*", "subj.ab"⟩)]⟩ "a/b/c").2
    (by decide)).1 ⟨"a/b/*", "subj.ab"⟩ (by decide)

/-- C3: `AddData` rejects an event lacking a key-definition field with an
error; in this embedding the returned state and emitted-callback list
exist only on the `ok` path, so nothing is mutated and no callback runs. -/
theorem addData_missing_key_field_errors (store : BlockStore) (combine : CombineFunc)
    (now : Nat) (src : String) (event : Data) (f : String)
    (hf : f ∈ store.keyDefinitions) (hmiss : event.find? f = none) :
    ∃ msg, AddData store combine now src event = .error msg := by
  obtain ⟨m, hm⟩ := getKeyValueAux_errors event store.keyDefinitions f hf hmiss ""
  exact ⟨"could not get key value for source data: " ++ m,
    by simp [AddData, GetKeyValue, hm]⟩

/-- C3 witness: the join store requires field `"id"`; an event without it
is rejected. -/
theorem addData_missing_key_field_witness :
    ∃ msg, AddData joinStore0 JoinCombine 0 "src1" [("x", .vInt 1)] = .error msg :=
  addData_missing_key_field_errors joinStore0 JoinCombine 0 "src1" [("x", .vInt 1)]
    "id" (by decide) (by decide)

/-- C7 counterexample: two `Set`s of the same key leave `items` with one
entry but the heap with two entries, both for that key — `Set` on an
already-present key pushes a second heap entry instead of updating the
existing one, so the items/heap agreement is not preserved. -/
theorem cache_set_duplicate_counterexample :
    dupCache2.items.length = 1 ∧ dupCache2.itemsHeap.length = 2 ∧
    (getEntry dupCache2 (dupCache2.itemsHeap.getD 0 999)).key = "k" ∧
    (getEntry dupCache2 (dupCache2.itemsHeap.getD 1 999)).key = "k" := by
  decide

/-- C7 amended: `Set` never updates in place — every `Set` allocates a
fresh entry, overwrites the `items` mapping (so `items` grows only for an
absent key) and pushes exactly one new heap entry, leaving any previous
heap entry for that key in the heap; and `Delete`, `DeleteByPrefix` and
`Clear` remove keys from `items` while leaving the heap untouched.  The
one-heap-entry-per-key items/heap agreement therefore does not hold. -/
theorem cache_ops_heap_map_disagreement (c : LocalCache) (now : Nat) (k : String)
    (v : GoVal) (ttl : Nat) (p : String) :
    (cacheSet c now k v ttl).itemsHeap.length = c.itemsHeap.length + 1 ∧
    lookupAssoc (cacheSet c now k v ttl).items k = some c.nextId ∧
    (cacheSet c now k v ttl).items.length
      = (if (lookupAssoc c.items k).isSome then c.items.length else c.items.length + 1) ∧
    (cacheDelete c now k).itemsHeap = c.itemsHeap ∧
    (cacheDeleteByPrefix c p).itemsHeap = c.itemsHeap ∧
    (cacheClear c).itemsHeap = c.itemsHeap := by
  refine ⟨?_, ?_, ?_, ?_, rfl, rfl⟩
  · simp only [cacheSet, cacheAdd]
    rw [heapPush_heap_length]
  · simp only [cacheSet, cacheAdd]
    rw [heapPush_items]
    exact lookupAssoc_setAssoc_self _ _ _
  · simp only [cacheSet, cacheAdd]
    rw [heapPush_items]
    exact setAssoc_length c.items k c.nextId
  · simp only [cacheDelete]
    rcases h : lookupAssoc c.items k with - | id
    · rfl
    · rfl

/-- C9: a `Get` after `Set(k,v,ttl)` and strictly before `ttl` has
elapsed returns `(v, hit)`; strictly after `ttl` has elapsed it returns a
miss; and in general `Get` never returns an entry whose eviction tick has
strictly passed, even while that entry is still present in `items`. -/
theorem cache_get_respects_ttl (c : LocalCache) (k : String) (v : GoVal)
    (ttl now1 now2 : Nat) (httl : 0 < ttl)
    (hwf : ∀ p ∈ c.entries, p.1 < c.nextId) :
    (now2 < now1 + ttl → cacheGet (cacheSet c now1 k v ttl) now2 k = (some v, true)) ∧
    (now1 + ttl < now2 → cacheGet (cacheSet c now1 k v ttl) now2 k = (none, false)) ∧
    (∀ (c' : LocalCache) (now : Nat) (k' : String) (id : Nat),
      lookupAssoc c'.items k' = some id → (getEntry c' id).evictAt < now →
      cacheGet c' now k' = (none, false)) := by
  have hitems : (cacheSet c now1 k v ttl).items = setAssoc c.items k c.nextId :=
    cacheAdd_items c now1 k v ttl
  have hsnap : entrySnap (getEntry (cacheSet c now1 k v ttl) c.nextId)
      = (k, some v, now1 + ttl) := by
    rw [cacheSet, cacheAdd_snap_new c now1 k v ttl hwf, if_neg httl.ne']
  have hval : (getEntry (cacheSet c now1 k v ttl) c.nextId).value = some v :=
    congrArg (fun t => t.2.1) hsnap
  have hev : (getEntry (cacheSet c now1 k v ttl) c.nextId).evictAt = now1 + ttl :=
    congrArg (fun t => t.2.2) hsnap
  refine ⟨?_, ?_, ?_⟩
  · intro hlt
    simp [cacheGet, hitems, lookupAssoc_setAssoc_self, hev, hval, Nat.not_lt.mpr hlt.le]
  · intro hgt
    simp [cacheGet, hitems, lookupAssoc_setAssoc_self, hev, hgt]
  · intro c' now k' id hid hev'
    simp [cacheGet, hid, hev']

/-- C9 witness: on an empty cache with default TTL 100, `Set` at tick 0
with TTL 5 gives a hit at tick 3 and a miss at tick 7. -/
theorem cache_get_respects_ttl_witness :
    cacheGet (cacheSet (emptyCache 100) 0 "k" (.vInt 1) 5) 3 "k" = (some (.vInt 1), true) ∧
    cacheGet (cacheSet (emptyCache 100) 0 "k" (.vInt 1) 5) 7 "k" = (none, false) :=
  ⟨(cache_get_respects_ttl (emptyCache 100) "k" (.vInt 1) 5 0 3 (by decide)
      (by intro p hp; cases hp)).1 (by decide),
    (cache_get_respects_ttl (emptyCache 100) "k" (.vInt 1) 5 0 7 (by decide)
      (by intro p hp; cases hp)).2.1 (by decide)⟩

/-- String append is left-cancellative. -/
theorem string_append_ne_of_ne (s a b : String) (h : a ≠ b) : s ++ a ≠ s ++ b := by
  intro he
  apply h
  have hd := congrArg String.data he
  simp only [String.data_append] at hd
  exact String.ext (List.append_cancel_left hd)

/-- C8: after caching `findStateFull("s1",flagsA)`, `findStateFull("s1",flagsB)`
and `findStateFull("s2",flagsA)` through the cached backend,
`InvalidateMethodPrefix("findStateFull","s1")` deletes exactly the two cache
entries whose first argument is `"s1"` and clears their key-registry entry,
while the `"s2"` entry stays cached and registered.  The digests of the three
calls are assumed pairwise distinct (no sha256 truncation collision). -/
theorem invalidate_method_prefix_scenario (hash : HashFn) (T : Nat)
    (fA fB v1 v2 v3 : GoVal) (d1 d2 d3 : String)
    (hT : 0 < T)
    (hd1 : hash "findStateFull" [.vStr "s1", fA] = d1)
    (hd2 : hash "findStateFull" [.vStr "s1", fB] = d2)
    (hd3 : hash "findStateFull" [.vStr "s2", fA] = d3)
    (h12 : d1 ≠ d2) (h13 : d1 ≠ d3) (h23 : d2 ≠ d3) :
    let cb0 : CachedBackend := { cache := emptyCache T, defaultTTL := T, keyRegistry := [] }
    let cb1 := (CallCached hash cb0 0 "findStateFull" [.vStr "s1", fA] v1).2
    let cb2 := (CallCached hash cb1 0 "findStateFull" [.vStr "s1", fB] v2).2
    let cb3 := (CallCached hash cb2 0 "findStateFull" [.vStr "s2", fA] v3).2
    let cbI := InvalidateMethodPrefix cb3 0 "findStateFull" [.vStr "s1"]
    cacheGet cbI.cache 0 ("findStateFull" ++ ":" ++ d1) = (none, false) ∧
    cacheGet cbI.cache 0 ("findStateFull" ++ ":" ++ d2) = (none, false) ∧
    cacheGet cbI.cache 0 ("findStateFull" ++ ":" ++ d3) = (some v3, true) ∧
    lookupAssoc cbI.keyRegistry ("findStateFull" ++ ":" ++ "s1") = none ∧
    lookupAssoc cbI.keyRegistry ("findStateFull" ++ ":" ++ "s2")
      = some ["findStateFull" ++ ":" ++ d3] := by
  intro cb0 cb1 cb2 cb3 cbI
  have k12 : ("findStateFull:" ++ d1) ≠ ("findStateFull:" ++ d2) :=
    string_append_ne_of_ne _ _ _ h12
  have k13 : ("findStateFull:" ++ d1) ≠ ("findStateFull:" ++ d3) :=
    string_append_ne_of_ne _ _ _ h13
  have k23 : ("findStateFull:" ++ d2) ≠ ("findStateFull:" ++ d3) :=
    string_append_ne_of_ne _ _ _ h23
  have r12 : ("findStateFull:s1" : String) ≠ "findStateFull:s2" := by
    decide
  have h1 : cb1 =
      { cache :=
          { entries := [(0, { key := "findStateFull" ++ ":" ++ d1, value := some v1,
                              evictAt := T, index := 0 })],
            nextId := 1,
            items := [("findStateFull" ++ ":" ++ d1, 0)],
            itemsHeap := [0], defaultTTL := T },
        defaultTTL := T,
        keyRegistry := [("findStateFull" ++ ":" ++ "s1",
          ["findStateFull" ++ ":" ++ d1])] } := by
    simp only [cb1, cb0]
    simp only [CallCached, BuildCacheKey, GoVal.fmt, hd1, lookupAssoc, setAssoc,
      GetCached, cacheGet, emptyCache, cacheSet, cacheAdd, hT.ne', if_false,
      heapPush, setEntry, getEntry, heapUp, List.length_nil, List.nil_append,
      List.length_append, Nat.zero_add, Option.getD_some, List.not_mem_nil, if_neg,
      ite_true, ite_false]
    simp
  have h2 : cb2 =
      { cache :=
          { entries := [(0, { key := "findStateFull" ++ ":" ++ d1, value := some v1,
                              evictAt := T, index := 0 }),
                        (1, { key := "findStateFull" ++ ":" ++ d2, value := some v2,
                              evictAt := T, index := 1 })],
            nextId := 2,
            items := [("findStateFull" ++ ":" ++ d1, 0), ("findStateFull" ++ ":" ++ d2, 1)],
            itemsHeap := [0, 1], defaultTTL := T },
        defaultTTL := T,
        keyRegistry := [("findStateFull" ++ ":" ++ "s1",
          ["findStateFull" ++ ":" ++ d1, "findStateFull" ++ ":" ++ d2])] } := by
    have step : cb2 = (CallCached hash cb1 0 "findStateFull" [.vStr "s1", fB] v2).2 := rfl
    rw [step, h1]
    simp only [CallCached, BuildCacheKey, GoVal.fmt, hd2, lookupAssoc, setAssoc,
      GetCached, cacheGet, cacheSet, cacheAdd, hT.ne', if_false,
      heapPush, setEntry, getEntry, heapUp, heapSwap, heapLess,
      Option.getD_some, ite_true, ite_false, k12, Ne.symm k12]
    simp [k12, Ne.symm k12]
  have h3 : cb3 =
      { cache :=
          { entries := [(0, { key := "findStateFull" ++ ":" ++ d1, value := some v1,
                              evictAt := T, index := 0 }),
                        (1, { key := "findStateFull" ++ ":" ++ d2, value := some v2,
                              evictAt := T, index := 1 }),
                        (2, { key := "findStateFull" ++ ":" ++ d3, value := some v3,
                              evictAt := T, index := 2 })],
            nextId := 3,
            items := [("findStateFull" ++ ":" ++ d1, 0), ("findStateFull" ++ ":" ++ d2, 1),
                      ("findStateFull" ++ ":" ++ d3, 2)],
            itemsHeap := [0, 1, 2], defaultTTL := T },
        defaultTTL := T,
        keyRegistry := [("findStateFull" ++ ":" ++ "s1",
            ["findStateFull" ++ ":" ++ d1, "findStateFull" ++ ":" ++ d2]),
          ("findStateFull" ++ ":" ++ "s2", ["findStateFull" ++ ":" ++ d3])] } := by
    have step : cb3 = (CallCached hash cb2 0 "findStateFull" [.vStr "s2", fA] v3).2 := rfl
    rw [step, h2]
    simp only [CallCached, BuildCacheKey, GoVal.fmt, hd3, lookupAssoc, setAssoc,
      GetCached, cacheGet, cacheSet, cacheAdd, hT.ne', if_false,
      heapPush, setEntry, getEntry, heapUp, heapSwap, heapLess,
      Option.getD_some, ite_true, ite_false, k13, Ne.symm k13, k23, Ne.symm k23,
      r12, Ne.symm r12]
    simp [k13, Ne.symm k13, k23, Ne.symm k23, r12, Ne.symm r12]
  have hI : cbI =
      { cache :=
          { entries := [(0, { key := "findStateFull" ++ ":" ++ d1, value := none,
                              evictAt := 0, index := 0 }),
                        (1, { key := "findStateFull" ++ ":" ++ d2, value := none,
                              evictAt := 0, index := 1 }),
                        (2, { key := "findStateFull" ++ ":" ++ d3, value := some v3,
                              evictAt := T, index := 2 })],
            nextId := 3,
            items := [("findStateFull" ++ ":" ++ d3, 2)],
            itemsHeap := [0, 1, 2], defaultTTL := T },
        defaultTTL := T,
        keyRegistry := [("findStateFull" ++ ":" ++ "s2", ["findStateFull" ++ ":" ++ d3])] } := by
    have step : cbI = InvalidateMethodPrefix cb3 0 "findStateFull" [.vStr "s1"] := rfl
    rw [step, h3]
    simp only [InvalidateMethodPrefix, GoVal.fmt, lookupAssoc, setAssoc, eraseAssoc,
      cacheDelete, setEntry, getEntry, Option.getD_some, ite_true, ite_false,
      List.foldl, k12, Ne.symm k12, k13, Ne.symm k13, k23, Ne.symm k23, r12, Ne.symm r12]
    simp [k12, Ne.symm k12, k13, Ne.symm k13, k23, Ne.symm k23, r12, Ne.symm r12]
  rw [hI]
  refine ⟨?_, ?_, ?_, ?_, ?_⟩
  · simp [cacheGet, lookupAssoc, Ne.symm k13]
  · simp [cacheGet, lookupAssoc, Ne.symm k23]
  · simp [cacheGet, lookupAssoc, getEntry]
  · simp [lookupAssoc, r12]
  · simp [lookupAssoc]

/-- C8 witness at a concrete digest function and concrete flags/values. -/
theorem invalidate_method_prefix_scenario_witness :
    let cb0 : CachedBackend := { cache := emptyCache 60, defaultTTL := 60, keyRegistry := [] }
    let cb1 := (CallCached hashModel cb0 0 "findStateFull" [.vStr "s1", .vInt 1] (.vInt 10)).2
    let cb2 := (CallCached hashModel cb1 0 "findStateFull" [.vStr "s1", .vInt 2] (.vInt 20)).2
    let cb3 := (CallCached hashModel cb2 0 "findStateFull" [.vStr "s2", .vInt 1] (.vInt 30)).2
    let cbI := InvalidateMethodPrefix cb3 0 "findStateFull" [.vStr "s1"]
    cacheGet cbI.cache 0
        ("findStateFull" ++ ":" ++ hashModel "findStateFull" [.vStr "s1", .vInt 1])
      = (none, false) ∧
    cacheGet cbI.cache 0
        ("findStateFull" ++ ":" ++ hashModel "findStateFull" [.vStr "s1", .vInt 2])
      = (none, false) ∧
    cacheGet cbI.cache 0
        ("findStateFull" ++ ":" ++ hashModel "findStateFull" [.vStr "s2", .vInt 1])
      = (some (.vInt 30), true) ∧
    lookupAssoc cbI.keyRegistry ("findStateFull" ++ ":" ++ "s1") = none ∧
    lookupAssoc cbI.keyRegistry ("findStateFull" ++ ":" ++ "s2")
      = some ["findStateFull" ++ ":" ++ hashModel "findStateFull" [.vStr "s2", .vInt 1]] :=
  invalidate_method_prefix_scenario hashModel 60 (.vInt 1) (.vInt 2)
    (.vInt 10) (.vInt 20) (.vInt 30)
    (hashModel "findStateFull" [.vStr "s1", .vInt 1])
    (hashModel "findStateFull" [.vStr "s1", .vInt 2])
    (hashModel "findStateFull" [.vStr "s2", .vInt 1])
    (by decide) rfl rfl rfl (by decide) (by decide) (by decide)

/-- C1: the two-source join scenario with `blockPartMaxJoinCount=1`:
the first `addData("src1", {id:"k", a:1})` emits nothing; the second
`addData("src2", {id:"k", b:2})` emits exactly one payload mapping
`id↦"k"`, `a↦1`, `b↦2` plus a `joinedAt` timestamp; the third
`addData("src2", {id:"k", b:3})` emits nothing because the stored src1
part's joinCount reached the maximum of 1, and that part is dropped from
the block. -/
theorem blockstore_join_scenario :
    (AddData joinStore0 JoinCombine 0 "src1" jd1).isOk = true ∧ joinStep1.2 = [] ∧
    (AddData joinStep1.1 JoinCombine 0 "src2" jd2).isOk = true ∧
    joinStep2.2 = [joinPayload] ∧
    joinPayload.find? "id" = some (.vStr "k") ∧
    joinPayload.find? "a" = some (.vInt 1) ∧
    joinPayload.find? "b" = some (.vInt 2) ∧
    joinPayload.find? "joinedAt" = some (.vTime 0) ∧
    (AddData joinStep2.1 JoinCombine 0 "src2" jd3).isOk = true ∧ joinStep3.2 = [] ∧
    (lookupAssoc joinStep3.1.blocks "k|").map (fun b => lookupAssoc b.partsBySource "src1")
      = some (some []) := by
  decide

end ISM
